import Mathlib

/-!
Verification of the agent event-client transport layer
(`vendor/github.com/kata-containers/agent/protocols/event/client.go`),
the event server wrapper (`StartEventServiceServer`) and the network CLI
(`cli/network.go`).

Go strings are modelled as `List Char` (the inputs of interest are ASCII,
where Go's byte-wise scanning and `Char`-wise scanning agree).  Go errors
are modelled by the inductive `GoErr`, which records the gRPC status code
(`InvalidArgument`, `DeadlineExceeded`), plain `net/url` errors, and plain
I/O errors; error message strings are abbreviated, only the error class and
the presence of an error are relied upon.
-/

/-- ASCII digit test, as Go's `'0' <= c && c <= '9'`. -/
def isDigitB (c : Char) : Bool := '0' ≤ c && c ≤ '9'

/-- ASCII letter test, as Go's `'a' <= c && c <= 'z' || 'A' <= c && c <= 'Z'`. -/
def isLetterB (c : Char) : Bool := ('a' ≤ c && c ≤ 'z') || ('A' ≤ c && c ≤ 'Z')

/-- Value of a base-10 digit string, most significant digit first. -/
def digitsVal (s : List Char) : Nat :=
  s.foldl (fun a c => a * 10 + (c.toNat - '0'.toNat)) 0

/-- Go `strconv.ParseUint(s, 10, 32)`: succeeds exactly on nonempty all-digit
strings whose value fits in 32 bits (no sign, no underscores in base 10). -/
def parseUint32 (s : List Char) : Option Nat :=
  if s ≠ [] ∧ s.all isDigitB = true ∧ digitsVal s < 2 ^ 32 then some (digitsVal s) else none

/-- Go `strings.Split(s, sep)` for a one-character separator. -/
def splitOn (sep : Char) : List Char → List (List Char)
  | [] => [[]]
  | c :: cs =>
    if c = sep then [] :: splitOn sep cs
    else
      match splitOn sep cs with
      | [] => [[c]]
      | t :: ts => (c :: t) :: ts

/-- Split at the first occurrence of `sep`: the part before it, and
(if `sep` occurs) the part after it. -/
def splitFirst (sep : Char) : List Char → List Char × Option (List Char)
  | [] => ([], none)
  | c :: cs =>
    if c = sep then ([], some cs)
    else
      let r := splitFirst sep cs
      (c :: r.1, r.2)

/-- Go `s[:i], s[i:]` at the first occurrence of `sep` (`strings.Index`);
the second component keeps the separator.  If `sep` does not occur the
second component is empty. -/
def breakAtChar (sep : Char) : List Char → List Char × List Char
  | [] => ([], [])
  | c :: cs =>
    if c = sep then ([], c :: cs)
    else
      let r := breakAtChar sep cs
      (c :: r.1, r.2)

/-- Split at the last occurrence of `sep` (`strings.LastIndex`): `none` when
`sep` does not occur, otherwise the parts before and after that occurrence. -/
def lastSplitChar (sep : Char) : List Char → Option (List Char × List Char)
  | [] => none
  | c :: cs =>
    match lastSplitChar sep cs with
    | some r => some (c :: r.1, r.2)
    | none => if c = sep then some ([], cs) else none

/-- Go error model: gRPC status errors with their code (`grpcStatus.Errorf`),
`net/url` parse errors, and plain I/O errors.  Message text is abbreviated. -/
inductive GoErr where
  | invalidArgument (msg : List Char)
  | deadlineExceeded (msg : List Char)
  | urlErr (msg : List Char)
  | ioErr (msg : List Char)
deriving DecidableEq

/-- The fields of Go's `url.URL` used by `parse`: `Scheme`, `Host`
(authority, possibly including a port), `Path`, and `Opaque` (called `opq` here since `opaque` is reserved). -/
structure GoURL where
  scheme : List Char
  host : List Char
  path : List Char
  opq : List Char
deriving DecidableEq

/-- `getScheme` of `net/url`: scan for a scheme followed by `:`.  The scheme
must start with a letter and continue with letters, digits, `+`, `-`, `.`;
a `:` at position 0 is "missing protocol scheme"; any other character before
a `:` means the whole string is scheme-less.  The accumulator holds the
scheme characters seen so far, reversed; it is empty exactly at position 0. -/
def getSchemeAux (orig : List Char) : List Char → List Char → Except GoErr (List Char × List Char)
  | _, [] => Except.ok ([], orig)
  | acc, c :: cs =>
    if isLetterB c then getSchemeAux orig (c :: acc) cs
    else if isDigitB c || c = '+' || c = '-' || c = '.' then
      if acc = [] then Except.ok ([], orig) else getSchemeAux orig (c :: acc) cs
    else if c = ':' then
      if acc = [] then Except.error (GoErr.urlErr ("missing protocol scheme".data))
      else Except.ok (acc.reverse.map Char.toLower, cs)
    else Except.ok ([], orig)

def getScheme (s : List Char) : Except GoErr (List Char × List Char) :=
  getSchemeAux s [] s

/-- `validOptionalPort` applied after the last `:` of the authority
(`net/url.parseHost`): everything after the last colon must be digits
(possibly none).  Hosts in `[...]` form are outside the modelled subset. -/
def parseHostValid (h : List Char) : Bool :=
  match lastSplitChar ':' h with
  | none => true
  | some r => r.2.all isDigitB

/-- `net/url.splitHostPort`, used by `URL.Hostname()` and `URL.Port()`:
split at the last colon when what follows it is all digits, else the whole
authority is the hostname and the port is empty. -/
def splitHostPort (h : List Char) : List Char × List Char :=
  match lastSplitChar ':' h with
  | none => (h, [])
  | some r => if r.2.all isDigitB then (r.1, r.2) else (h, [])

/-- Strip the userinfo part of an authority (`strings.LastIndex(authority, "@")`). -/
def afterLastAt (s : List Char) : List Char :=
  match lastSplitChar '@' s with
  | none => s
  | some r => r.2

/-- Go's "first path segment in URL cannot contain colon" test: the segment
of `rest` before the first `/` contains a `:`. -/
def hasColonBeforeSlash (s : List Char) : Bool :=
  (breakAtChar '/' s).1.contains ':'

/-- The part of `net/url.Parse` after scheme extraction: authority form
(`//host[/path]`), rooted path, opaque, or scheme-less path. -/
def urlParseAfterScheme (scheme rest0 : List Char) : Except GoErr GoURL :=
  let rest := (splitFirst '?' rest0).1
  if rest.take 2 = ['/', '/'] then
    let br := breakAtChar '/' (rest.drop 2)
    let host := afterLastAt br.1
    if parseHostValid host then Except.ok ⟨scheme, host, br.2, []⟩
    else Except.error (GoErr.urlErr ("invalid port after host".data))
  else if rest.head? = some '/' then Except.ok ⟨scheme, [], rest, []⟩
  else if scheme ≠ [] then Except.ok ⟨scheme, [], [], rest⟩
  else if hasColonBeforeSlash rest = true then
    Except.error (GoErr.urlErr ("first path segment in URL cannot contain colon".data))
  else Except.ok ⟨scheme, [], rest, []⟩

/-- Model of Go `net/url.Parse`, restricted to the subset exercised by the
transport code: no percent-escapes, no `[...]` IPv6 hosts, no control
characters; the fragment and query are cut off and discarded. -/
def urlParse (raw : List Char) : Except GoErr GoURL :=
  Except.bind (getScheme (splitFirst '#' raw).1) (fun sr => urlParseAfterScheme sr.1 sr.2)

def vsockSchemeL : List Char := "vsock".data

def unixSchemeL : List Char := "unix".data

def hvsockSchemeL : List Char := "hvsock".data

/-- `parse` of `client.go` (lines 104-155).  The second component of the
result is the process-wide `hybridVSockPort` global after the call (the Go
function mutates it in the hvsock branch; here the state is threaded
explicitly).  On success the payload is the gRPC address string and the
parsed URL.  All `InvalidArgument` errors carry the input as their
(abbreviated) message. -/
def parse (sock : List Char) (hvPort : Nat) : Except GoErr (List Char × GoURL) × Nat :=
  match urlParse sock with
  | Except.error e => (Except.error e, hvPort)
  | Except.ok addr =>
    if addr.scheme = vsockSchemeL then
      let hn := (splitHostPort addr.host).1
      let pt := (splitHostPort addr.host).2
      if hn = [] ∨ pt = [] ∨ addr.path ≠ [] then
        (Except.error (GoErr.invalidArgument sock), hvPort)
      else
        match parseUint32 hn with
        | none => (Except.error (GoErr.invalidArgument sock), hvPort)
        | some _ =>
          match parseUint32 pt with
          | none => (Except.error (GoErr.invalidArgument sock), hvPort)
          | some _ => (Except.ok (vsockSchemeL ++ ':' :: addr.host, addr), hvPort)
    else if addr.scheme = unixSchemeL ∨ addr.scheme = [] then
      if (addr.host = [] ∧ addr.path = []) ∨ (splitHostPort addr.host).2 ≠ [] then
        (Except.error (GoErr.invalidArgument sock), hvPort)
      else if addr.host = [] then
        (Except.ok (unixSchemeL ++ ":///".data ++ addr.path, addr), hvPort)
      else
        (Except.ok (unixSchemeL ++ ":///".data ++ addr.host ++ '/' :: addr.path, addr), hvPort)
    else if addr.scheme = hvsockSchemeL then
      if addr.path = [] then (Except.error (GoErr.invalidArgument sock), hvPort)
      else
        let hv := splitOn ':' addr.path
        if hv.length ≠ 2 then (Except.error (GoErr.invalidArgument sock), hvPort)
        else
          match parseUint32 (hv.get! 1) with
          | none => (Except.error (GoErr.invalidArgument sock), hvPort)
          | some port => (Except.ok (hvsockSchemeL ++ ':' :: hv.head!, addr), port)
    else (Except.error (GoErr.invalidArgument sock), hvPort)

/-- `parseGrpcVsockAddr` of `client.go` (lines 186-205): split on `:` into
exactly three fields `vsock:cid:port`, both numeric fields 32-bit. -/
def parseGrpcVsockAddr (sock : List Char) : Except GoErr (Nat × Nat) :=
  match splitOn ':' sock with
  | [sc, cidS, portS] =>
    if sc ≠ vsockSchemeL then Except.error (GoErr.invalidArgument sock)
    else
      match parseUint32 cidS with
      | none => Except.error (GoErr.invalidArgument cidS)
      | some cid =>
        match parseUint32 portS with
        | none => Except.error (GoErr.invalidArgument portS)
        | some port => Except.ok (cid, port)
  | _ => Except.error (GoErr.invalidArgument sock)

/-- `parseGrpcHybridVSockAddr` of `client.go` (lines 207-227): at least two
`:`-separated fields; an optional third field overrides the port when it
parses, otherwise the port is 0. -/
def parseGrpcHybridVSockAddr (sock : List Char) : Except GoErr (List Char × Nat) :=
  let sp := splitOn ':' sock
  if sp.length < 2 then Except.error (GoErr.invalidArgument sock)
  else if sp.head! ≠ hvsockSchemeL then Except.error (GoErr.invalidArgument sock)
  else
    let port := if sp.length = 3 then
        match parseUint32 (sp.get! 2) with
        | some x => x
        | none => 0
      else 0
    Except.ok (sp.get! 1, port)

/-- Go `strings.Trim(s, cutset)`: remove from both ends every character
belonging to the cutset (a character set, not a token). -/
def goTrim (cut : List Char) (s : List Char) : List Char :=
  ((s.dropWhile (fun c => cut.contains c)).reverse.dropWhile (fun c => cut.contains c)).reverse

/-- The address handling of `unixDialer` (`client.go` lines 173-176): when
the dial string starts with `unix:`, the path actually dialled is
`strings.Trim(sock, "unix:")`. -/
def unixDialerPath (sock : List Char) : List Char :=
  if "unix:".data.isPrefixOf sock then goTrim "unix:".data sock else sock

/-- Outcomes of the external calls made by one iteration of
`HybridVSockDialer`'s `dialFunc` (`client.go` lines 298-326):
whether `net.DialTimeout`, `conn.Write` and `conn.Read` fail
(`none` = success). -/
structure HybridConnBehavior where
  dialErr : Option GoErr
  writeErr : Option GoErr
  readErr : Option GoErr
deriving DecidableEq

instance exceptDecEq {ε α : Type} [DecidableEq ε] [DecidableEq α] : DecidableEq (Except ε α) :=
  fun a b =>
    match a, b with
    | Except.ok x, Except.ok y =>
      if h : x = y then Decidable.isTrue (by rw [h]) else Decidable.isFalse (by simp [h])
    | Except.error x, Except.error y =>
      if h : x = y then Decidable.isTrue (by rw [h]) else Decidable.isFalse (by simp [h])
    | Except.ok _, Except.error _ => Decidable.isFalse (by simp)
    | Except.error _, Except.ok _ => Decidable.isFalse (by simp)

/-- What one `dialFunc` iteration of `HybridVSockDialer` did: the value it
returns to `commonDialer` (`ok` means a `net.Conn` is returned), whether
`Close()` was called on the dialled connection, and the bytes handed to
`conn.Write` (when the dial succeeded). -/
structure HybridAttemptOutcome where
  result : Except GoErr Unit
  connClosed : Bool
  wrote : Option (List Char)
deriving DecidableEq

/-- The `CONNECT %d\n` control line of the hybrid handshake. -/
def connectCmd (port : Nat) : List Char :=
  "CONNECT ".data ++ (Nat.repr port).data ++ ['\n']

/-- One iteration of `HybridVSockDialer`'s `dialFunc` (`client.go` lines
298-326), given the behaviour of the underlying connection, the port
recovered from the dial string (`dialPort`) and the process-wide
`hybridVSockPort` captured at parse time (`hvPort`).  Faithfully to the
source: a write error closes the connection and returns the error; a read
error closes the connection and then returns `conn, nil`. -/
def hybridDialAttempt (b : HybridConnBehavior) (dialPort hvPort : Nat) : HybridAttemptOutcome :=
  match b.dialErr with
  | some e => ⟨Except.error e, false, none⟩
  | none =>
    let port := if dialPort = 0 then hvPort else dialPort
    match b.writeErr with
    | some e => ⟨Except.error e, true, some (connectCmd port)⟩
    | none =>
      match b.readErr with
      | some _ => ⟨Except.ok (), true, some (connectCmd port)⟩
      | none => ⟨Except.ok (), false, some (connectCmd port)⟩

/-- Program counter of the attempting goroutine spawned by `commonDialer`
(`client.go` lines 238-259): at the top of the retry loop before attempt
`i`; after attempt `i` succeeded, about to call `t.Stop()`; blocked sending
the connection of attempt `i` on `ch`; or returned. -/
inductive GLoc where
  | top (i : Nat)
  | gstop (i : Nat)
  | gsend (i : Nat)
  | gdone
deriving DecidableEq

/-- Program counter of the calling goroutine of `commonDialer` (lines
261-273): blocked in the `select`; blocked sending on `cancel` after the
timer fired; or returned with a result (`ok i` = the connection of attempt
`i`, `error` = `timeoutErrMsg`). -/
inductive MLoc where
  | sel
  | cancelS
  | done (r : Except GoErr Nat)
deriving DecidableEq

/-- State of `time.NewTimer(timeout)`: still running, fired (a value is in
`t.C`), or stopped by a successful `t.Stop()`. -/
inductive TState where
  | running
  | fired
  | stopped
deriving DecidableEq

/-- Joint state of one `commonDialer` invocation: the two goroutines, the
timer, the set of connections the goroutine has closed, and whether the
cancellation send has been received. -/
structure DialerState where
  g : GLoc
  m : MLoc
  t : TState
  closed : List Nat
  canceled : Bool
deriving DecidableEq

/-- Interleaving semantics of `commonDialer` (`client.go` lines 234-274).
`att i` is the predetermined outcome of the `i`-th `dialFunc()` call.
Transitions: the timer fires spontaneously; the goroutine's
`select { case <-cancel: ...; default: }` must take the receive when the
caller is blocked sending on `cancel` (rendezvous, `cancelRdv`) and
otherwise runs `dialFunc()`; on success `t.Stop()` either stops a running
timer and proceeds to send on `ch`, or (timer already fired) closes the
connection and returns; the caller's `select` receives the connection from
`ch` (`handoff`) or consumes the fired timer and moves to the `cancel`
send.  `ch` is never closed, so the `!ok` branch of the source never runs. -/
inductive DStep (att : Nat → Except GoErr Unit) (tErr : GoErr) : DialerState → DialerState → Prop where
  | fire (s : DialerState) :
      s.t = TState.running → DStep att tErr s { s with t := TState.fired }
  | cancelRdv (s : DialerState) (i : Nat) :
      s.g = GLoc.top i → s.m = MLoc.cancelS →
      DStep att tErr s
        { s with g := GLoc.gdone, m := MLoc.done (Except.error tErr), canceled := true }
  | attemptFail (s : DialerState) (i : Nat) (e : GoErr) :
      s.g = GLoc.top i → s.m ≠ MLoc.cancelS → att i = Except.error e →
      DStep att tErr s { s with g := GLoc.top (i + 1) }
  | attemptSucc (s : DialerState) (i : Nat) :
      s.g = GLoc.top i → s.m ≠ MLoc.cancelS → att i = Except.ok () →
      DStep att tErr s { s with g := GLoc.gstop i }
  | stopTrue (s : DialerState) (i : Nat) :
      s.g = GLoc.gstop i → s.t = TState.running →
      DStep att tErr s { s with g := GLoc.gsend i, t := TState.stopped }
  | stopFalse (s : DialerState) (i : Nat) :
      s.g = GLoc.gstop i → s.t = TState.fired →
      DStep att tErr s { s with g := GLoc.gdone, closed := i :: s.closed }
  | handoff (s : DialerState) (i : Nat) :
      s.g = GLoc.gsend i → s.m = MLoc.sel →
      DStep att tErr s { s with g := GLoc.gdone, m := MLoc.done (Except.ok i) }
  | timerRecv (s : DialerState) :
      s.m = MLoc.sel → s.t = TState.fired →
      DStep att tErr s { s with m := MLoc.cancelS }

/-- Initial state of a `commonDialer` invocation. -/
def initDialer : DialerState :=
  ⟨GLoc.top 0, MLoc.sel, TState.running, [], false⟩

/-- States reachable during one `commonDialer` invocation. -/
def Reached (att : Nat → Except GoErr Unit) (tErr : GoErr) (s : DialerState) : Prop :=
  Relation.ReflTransGen (DStep att tErr) initDialer s

/-- Inductive invariant of the `commonDialer` state machine. -/
def DialerInv (att : Nat → Except GoErr Unit) (tErr : GoErr) (s : DialerState) : Prop :=
  (∀ i, s.m = MLoc.done (Except.ok i) →
      att i = Except.ok () ∧ i ∉ s.closed ∧ s.t = TState.stopped) ∧
  (∀ i, s.g = GLoc.gsend i →
      att i = Except.ok () ∧ i ∉ s.closed ∧ s.t = TState.stopped) ∧
  (∀ i, s.g = GLoc.gstop i → att i = Except.ok () ∧ i ∉ s.closed) ∧
  (∀ i, i ∈ s.closed →
      att i = Except.ok () ∧ s.t = TState.fired ∧ s.g = GLoc.gdone ∧
      ∀ j, s.m ≠ MLoc.done (Except.ok j)) ∧
  (s.m = MLoc.cancelS → s.t = TState.fired) ∧
  (∀ e, s.m = MLoc.done (Except.error e) →
      e = tErr ∧ s.canceled = true ∧ s.t = TState.fired) ∧
  (∀ r, s.m = MLoc.done r → s.g = GLoc.gdone)

/-- Go `strconv.Atoi(s)` (= `ParseInt(s, 10, 64)`): the returned value and
error.  On a syntax error the value is 0; on range overflow the value is
clamped to the 64-bit limit and an error is returned. -/
def goAtoiMag (orig ds : List Char) (neg : Bool) : Int × Option GoErr :=
  if ds = [] ∨ ¬ ds.all isDigitB = true then (0, some (GoErr.invalidArgument orig))
  else
    let v := digitsVal ds
    if neg then
      if v ≤ 2 ^ 63 then (-(Int.ofNat v), none)
      else (-(2 ^ 63 : Int), some (GoErr.invalidArgument orig))
    else
      if v < 2 ^ 63 then (Int.ofNat v, none)
      else ((2 ^ 63 : Int) - 1, some (GoErr.invalidArgument orig))

def goAtoiPair (s : List Char) : Int × Option GoErr :=
  match s with
  | [] => (0, some (GoErr.invalidArgument s))
  | '+' :: ds => goAtoiMag s ds false
  | '-' :: ds => goAtoiMag s ds true
  | ds => goAtoiMag s ds false

/-- Result of the address handling in `StartEventServiceServer` (the event
server wrapper, lines 61-90), given the listener address string returned by
a successful `vsock.Listen(0)`: either a panic from indexing `vals[1]` when
the `:`-split has fewer than two fields, or a Go-style
`return server, err` pair (the server is represented by its port). -/
inductive StartOutcome where
  | panicIndex
  | ret (serverPort : Option Nat) (err : Option GoErr)
deriving DecidableEq

/-- `StartEventServiceServer` after a successful `vsock.Listen(0)` whose
listener address string is `addrStr`.  The source computes
`vals[1]` (and `strconv.Atoi` of it) before testing `len(vals) != 2`, so a
colon-less address panics with an index-out-of-range; then
`if len != 2 || port == 0 { return nil, err }` returns the `Atoi` error,
which is `nil` when the port field parsed as 0.  `uint32(port)` is the
two's-complement truncation of the 64-bit value. -/
def startEventServiceServer (addrStr : List Char) : StartOutcome :=
  let vals := splitOn ':' addrStr
  if h : 1 < vals.length then
    let pe := goAtoiPair (vals.get ⟨1, h⟩)
    if vals.length ≠ 2 ∨ pe.1 = 0 then StartOutcome.ret none pe.2
    else StartOutcome.ret (some (pe.1 % (2 ^ 32 : Int)).toNat) none
  else StartOutcome.panicIndex

/-- A network endpoint as observed by the CLI: name, hardware address and
type (`vc.Endpoint` interface, only the accessors used by `getNetworks`). -/
structure NetEndpoint where
  name : List Char
  mac : List Char
  typ : List Char
deriving DecidableEq

/-- `networkState` of `cli/network.go` (fields `Interface`, `MAC`, `Type`,
`HotPlugable`). -/
structure NetworkStateRec where
  iface : List Char
  mac : List Char
  typ : List Char
  hotPlugable : Bool
deriving DecidableEq

/-- `getNetworks` (`cli/network.go` lines 158-177): propagate the error of
`vci.ListNetwork` (returning a nil slice), else map every endpoint to a
`networkState` with `HotPlugable: false`. -/
def getNetworks (listResult : Except GoErr (List NetEndpoint)) :
    Except GoErr (List NetworkStateRec) :=
  match listResult with
  | Except.error e => Except.error e
  | Except.ok eps => Except.ok (eps.map fun e => ⟨e.name, e.mac, e.typ, false⟩)

/-- Which `formatNetworkState.Write` implementation the `ls` action invoked,
with the state slice it was given (the write itself is I/O and assumed to
succeed, as all three implementations only fail on file errors). -/
inductive FormatWrite where
  | listW (st : List NetworkStateRec)
  | tabularW (st : List NetworkStateRec)
  | jsonW (st : List NetworkStateRec)
deriving DecidableEq

/-- Inputs of one run of the `network ls` action (`cli/network.go` lines
62-97): whether a container argument is present, the outcome of
`getExistingContainerInfo`, the container state, the outcome of
`vci.ListNetwork`, and the `--quiet` / `--format` flags. -/
structure NetListArgs where
  argsPresent : Bool
  infoErr : Option GoErr
  running : Bool
  listResult : Except GoErr (List NetEndpoint)
  quiet : Bool
  format : List Char

/-- The `network ls` action (`cli/network.go` lines 62-97).  Faithfully to
the source, the error of `getNetworks` at line 78 is assigned to `err` but
never inspected: the action proceeds to format whatever slice came back
(nil on failure). -/
def netListAction (a : NetListArgs) : Except GoErr FormatWrite :=
  if a.argsPresent = false then
    Except.error (GoErr.invalidArgument ("missing container ID".data))
  else
    match a.infoErr with
    | some e => Except.error e
    | none =>
      if a.running = false then
        Except.error (GoErr.invalidArgument ("container is not running".data))
      else
        let s : List NetworkStateRec :=
          match getNetworks a.listResult with
          | Except.ok v => v
          | Except.error _ => []
        if a.quiet = true then Except.ok (FormatWrite.listW s)
        else if a.format = "table".data then Except.ok (FormatWrite.tabularW s)
        else if a.format = "json".data then Except.ok (FormatWrite.jsonW s)
        else Except.error (GoErr.invalidArgument ("invalid format option".data))

/-- An attempt schedule whose every call succeeds immediately. -/
def attAlwaysOk : Nat → Except GoErr Unit := fun _ => Except.ok ()

/-- The `timeoutErrMsg` handed to `commonDialer` by the per-scheme dialers. -/
def timeoutErrMsgEx : GoErr := GoErr.deadlineExceeded ("timed out connecting".data)

/-- The deadlocked state of `commonDialer` after: timer fires, the attempt
succeeds, `t.Stop()` returns false so the goroutine closes connection 0 and
returns, and the caller consumes the fired timer and blocks sending on
`cancel` — which no goroutine will ever receive. -/
def dialerDeadState : DialerState :=
  ⟨GLoc.gdone, MLoc.cancelS, TState.fired, [0], false⟩

/-- The final state of a run in which attempt 0 succeeded before the
deadline and its connection was handed to the caller. -/
def dialerDoneState : DialerState :=
  ⟨GLoc.gdone, MLoc.done (Except.ok 0), TState.stopped, [], false⟩

/-- An attempt schedule whose every call fails (connection refused). -/
def attAlwaysRefused : Nat → Except GoErr Unit :=
  fun _ => Except.error (GoErr.ioErr ("connection refused".data))

/-- The final state of a run in which no attempt succeeded: the timer
fired, the caller sent the cancellation, the goroutine received it, and the
caller returned the timeout error. -/
def dialerTimeoutState : DialerState :=
  ⟨GLoc.gdone, MLoc.done (Except.error timeoutErrMsgEx), TState.fired, [], true⟩

/-- Whether a `GoErr` carries the gRPC `InvalidArgument` status code. -/
def isInvalidArg : GoErr → Bool
  | GoErr.invalidArgument _ => true
  | _ => false

theorem splitOn_ne_nil (sep : Char) (s : List Char) : splitOn sep s ≠ [] := by
  cases s with
  | nil => simp [splitOn]
  | cons c cs =>
    simp only [splitOn]
    split
    · simp
    · split <;> simp

theorem splitOn_not_mem {sep : Char} {s : List Char} (h : sep ∉ s) : splitOn sep s = [s] := by
  induction s with
  | nil => rfl
  | cons c cs ih =>
    have hc : ¬ c = sep := fun he => h (by simp [he])
    have hcs : sep ∉ cs := fun hm => h (by simp [hm])
    simp [splitOn, hc, ih hcs]

theorem splitOn_append_sep {sep : Char} {x : List Char} (y : List Char) (hx : sep ∉ x) :
    splitOn sep (x ++ sep :: y) = x :: splitOn sep y := by
  induction x with
  | nil => simp [splitOn]
  | cons c cs ih =>
    have hc : ¬ c = sep := fun he => hx (by simp [he])
    have hcs : sep ∉ cs := fun hm => hx (by simp [hm])
    have hrw : splitOn sep (cs ++ sep :: y) = cs :: splitOn sep y := ih hcs
    simp only [List.cons_append, splitOn, hc, if_false]
    rw [show cs.append (sep :: y) = cs ++ sep :: y from rfl, hrw]

theorem splitFirst_fst_of_not_mem {sep : Char} {s : List Char} (h : sep ∉ s) :
    (splitFirst sep s).1 = s := by
  induction s with
  | nil => rfl
  | cons c cs ih =>
    have hc : ¬ c = sep := fun he => h (by simp [he])
    have hcs : sep ∉ cs := fun hm => h (by simp [hm])
    simp [splitFirst, hc, ih hcs]

theorem breakAtChar_of_not_mem {sep : Char} {s : List Char} (h : sep ∉ s) :
    breakAtChar sep s = (s, []) := by
  induction s with
  | nil => rfl
  | cons c cs ih =>
    have hc : ¬ c = sep := fun he => h (by simp [he])
    have hcs : sep ∉ cs := fun hm => h (by simp [hm])
    simp [breakAtChar, hc, ih hcs]

theorem breakAtChar_cons_self (sep : Char) (s : List Char) :
    breakAtChar sep (sep :: s) = ([], sep :: s) := by
  simp [breakAtChar]

theorem lastSplitChar_of_not_mem {sep : Char} {s : List Char} (h : sep ∉ s) :
    lastSplitChar sep s = none := by
  induction s with
  | nil => rfl
  | cons c cs ih =>
    have hc : ¬ c = sep := fun he => h (by simp [he])
    have hcs : sep ∉ cs := fun hm => h (by simp [hm])
    simp [lastSplitChar, hc, ih hcs]

theorem lastSplitChar_append {sep : Char} (x : List Char) {y : List Char} (hy : sep ∉ y) :
    lastSplitChar sep (x ++ sep :: y) = some (x, y) := by
  induction x with
  | nil => simp [lastSplitChar, lastSplitChar_of_not_mem hy]
  | cons c cs ih => simp [lastSplitChar, ih]

theorem not_mem_of_all_digit {s : List Char} {c : Char}
    (hs : s.all isDigitB = true) (hc : isDigitB c = false) : c ∉ s := by
  intro hm
  have := List.all_eq_true.mp hs c hm
  rw [hc] at this
  exact Bool.noConfusion this

theorem dialerInv_init (att : Nat → Except GoErr Unit) (tErr : GoErr) :
    DialerInv att tErr initDialer := by
  refine ⟨?_, ?_, ?_, ?_, ?_, ?_, ?_⟩
  · intro i hm; exact MLoc.noConfusion hm
  · intro i hg; exact GLoc.noConfusion hg
  · intro i hg; exact GLoc.noConfusion hg
  · intro i hcl; exact absurd hcl (List.not_mem_nil i)
  · intro hm; exact MLoc.noConfusion hm
  · intro e hm; exact MLoc.noConfusion hm
  · intro r hm; exact MLoc.noConfusion hm

theorem dialerInv_step {att : Nat → Except GoErr Unit} {tErr : GoErr} {s s2 : DialerState}
    (hinv : DialerInv att tErr s) (hstep : DStep att tErr s s2) : DialerInv att tErr s2 := by
  obtain ⟨h1, h2, h3, h4, h5, h6, h7⟩ := hinv
  cases hstep with
  | fire ht =>
    refine ⟨?_, ?_, ?_, ?_, ?_, ?_, ?_⟩
    · intro i hm; exact absurd ((h1 i hm).2.2.symm.trans ht) (by decide)
    · intro i hg; exact absurd ((h2 i hg).2.2.symm.trans ht) (by decide)
    · intro i hg; exact h3 i hg
    · intro i hcl; exact absurd ((h4 i hcl).2.1.symm.trans ht) (by decide)
    · intro _; rfl
    · intro e hm; exact absurd ((h6 e hm).2.2.symm.trans ht) (by decide)
    · intro r hm; exact h7 r hm
  | cancelRdv i hg hm =>
    refine ⟨?_, ?_, ?_, ?_, ?_, ?_, ?_⟩
    · intro j hmm; exact absurd hmm (by simp)
    · intro j hgg; exact GLoc.noConfusion hgg
    · intro j hgg; exact GLoc.noConfusion hgg
    · intro j hcl; exact GLoc.noConfusion (hg.symm.trans (h4 j hcl).2.2.1)
    · intro hmm; exact MLoc.noConfusion hmm
    · intro e hmm
      have he : Except.error (ε := GoErr) (α := Nat) tErr = Except.error e := by
        injection hmm
      have he2 : tErr = e := by injection he
      exact ⟨he2.symm, rfl, h5 hm⟩
    · intro r hmm; rfl
  | attemptFail i e hg hm ha =>
    refine ⟨?_, ?_, ?_, ?_, ?_, ?_, ?_⟩
    · intro j hmm; exact h1 j hmm
    · intro j hgg; exact GLoc.noConfusion hgg
    · intro j hgg; exact GLoc.noConfusion hgg
    · intro j hcl; exact GLoc.noConfusion (hg.symm.trans (h4 j hcl).2.2.1)
    · intro hmm; exact h5 hmm
    · intro f hmm; exact h6 f hmm
    · intro r hmm; exact GLoc.noConfusion (hg.symm.trans (h7 r hmm))
  | attemptSucc i hg hm ha =>
    refine ⟨?_, ?_, ?_, ?_, ?_, ?_, ?_⟩
    · intro j hmm; exact h1 j hmm
    · intro j hgg; exact GLoc.noConfusion hgg
    · intro j hgg
      have hij : i = j := by injection hgg
      subst hij
      refine ⟨ha, fun hcl => ?_⟩
      exact GLoc.noConfusion (hg.symm.trans (h4 _ hcl).2.2.1)
    · intro j hcl; exact GLoc.noConfusion (hg.symm.trans (h4 j hcl).2.2.1)
    · intro hmm; exact h5 hmm
    · intro f hmm; exact h6 f hmm
    · intro r hmm; exact GLoc.noConfusion (hg.symm.trans (h7 r hmm))
  | stopTrue i hg ht =>
    refine ⟨?_, ?_, ?_, ?_, ?_, ?_, ?_⟩
    · intro j hmm; exact absurd ((h1 j hmm).2.2.symm.trans ht) (by decide)
    · intro j hgg
      have hij : i = j := by injection hgg
      subst hij
      exact ⟨(h3 _ hg).1, (h3 _ hg).2, rfl⟩
    · intro j hgg; exact GLoc.noConfusion hgg
    · intro j hcl; exact GLoc.noConfusion (hg.symm.trans (h4 j hcl).2.2.1)
    · intro hmm; exact absurd ((h5 hmm).symm.trans ht) (by decide)
    · intro f hmm; exact absurd ((h6 f hmm).2.2.symm.trans ht) (by decide)
    · intro r hmm; exact GLoc.noConfusion (hg.symm.trans (h7 r hmm))
  | stopFalse i hg ht =>
    refine ⟨?_, ?_, ?_, ?_, ?_, ?_, ?_⟩
    · intro j hmm; exact absurd ((h1 j hmm).2.2.symm.trans ht) (by decide)
    · intro j hgg; exact GLoc.noConfusion hgg
    · intro j hgg; exact GLoc.noConfusion hgg
    · intro j hcl
      rcases List.mem_cons.mp hcl with hji | hmem
      · subst hji
        refine ⟨(h3 _ hg).1, ht, rfl, ?_⟩
        intro k hmm
        exact GLoc.noConfusion (hg.symm.trans (h7 _ hmm))
      · exact GLoc.noConfusion (hg.symm.trans (h4 j hmem).2.2.1)
    · intro hmm; exact h5 hmm
    · intro f hmm; exact h6 f hmm
    · intro r hmm; rfl
  | handoff i hg hm =>
    refine ⟨?_, ?_, ?_, ?_, ?_, ?_, ?_⟩
    · intro j hmm
      have he : Except.ok (ε := GoErr) (α := Nat) i = Except.ok j := by injection hmm
      have hij : i = j := by injection he
      subst hij
      exact ⟨(h2 _ hg).1, (h2 _ hg).2.1, (h2 _ hg).2.2⟩
    · intro j hgg; exact GLoc.noConfusion hgg
    · intro j hgg; exact GLoc.noConfusion hgg
    · intro j hcl; exact GLoc.noConfusion (hg.symm.trans (h4 j hcl).2.2.1)
    · intro hmm; exact MLoc.noConfusion hmm
    · intro f hmm
      have he : Except.ok (ε := GoErr) (α := Nat) i = Except.error f := by injection hmm
      exact Except.noConfusion he
    · intro r hmm; rfl
  | timerRecv hm ht =>
    refine ⟨?_, ?_, ?_, ?_, ?_, ?_, ?_⟩
    · intro j hmm; exact MLoc.noConfusion hmm
    · intro j hgg; exact absurd ((h2 j hgg).2.2.symm.trans ht) (by decide)
    · intro j hgg; exact h3 j hgg
    · intro j hcl
      refine ⟨(h4 j hcl).1, (h4 j hcl).2.1, (h4 j hcl).2.2.1, ?_⟩
      intro k hmm
      exact MLoc.noConfusion hmm
    · intro _; exact ht
    · intro f hmm; exact MLoc.noConfusion hmm
    · intro r hmm; exact MLoc.noConfusion hmm

theorem dialerInv_reached {att : Nat → Except GoErr Unit} {tErr : GoErr} {s : DialerState}
    (h : Reached att tErr s) : DialerInv att tErr s := by
  induction h with
  | refl => exact dialerInv_init att tErr
  | tail _ hbc ih => exact dialerInv_step ih hbc

/-- Claim C3: in every reachable state of a `commonDialer` invocation, a
connection handed to the caller comes from a successful attempt, was not
closed, and was handed over strictly before the deadline (the timer was
stopped); every connection the goroutine closed was produced after the
timer had fired and is never the caller's result; once the deadline has
fired no hand-off is in progress; and once a result is produced the state
is final, so at most one connection is ever handed to the caller. -/
theorem commonDialer_c3 (att : Nat → Except GoErr Unit) (tErr : GoErr) (s : DialerState)
    (hr : Reached att tErr s) :
    (∀ i, s.m = MLoc.done (Except.ok i) →
        att i = Except.ok () ∧ i ∉ s.closed ∧ s.t = TState.stopped) ∧
    (∀ i, i ∈ s.closed → s.t = TState.fired ∧ ∀ j, s.m ≠ MLoc.done (Except.ok j)) ∧
    (s.t = TState.fired → ∀ i, s.g ≠ GLoc.gsend i) ∧
    (∀ r s2, s.m = MLoc.done r → ¬ DStep att tErr s s2) := by
  obtain ⟨h1, h2, h3, h4, h5, h6, h7⟩ := dialerInv_reached hr
  refine ⟨h1, ?_, ?_, ?_⟩
  · intro i hcl
    exact ⟨(h4 i hcl).2.1, (h4 i hcl).2.2.2⟩
  · intro ht i hgs
    exact absurd ((h2 i hgs).2.2.symm.trans ht) (by decide)
  · intro r s2 hm hstep
    have hgd := h7 r hm
    cases hstep with
    | fire ht =>
      cases r with
      | ok i => exact absurd ((h1 i hm).2.2.symm.trans ht) (by decide)
      | error e => exact absurd ((h6 e hm).2.2.symm.trans ht) (by decide)
    | cancelRdv i hg hmc => exact MLoc.noConfusion (hmc.symm.trans hm)
    | attemptFail i e hg hmc ha => exact GLoc.noConfusion (hg.symm.trans hgd)
    | attemptSucc i hg hmc ha => exact GLoc.noConfusion (hg.symm.trans hgd)
    | stopTrue i hg ht => exact GLoc.noConfusion (hg.symm.trans hgd)
    | stopFalse i hg ht => exact GLoc.noConfusion (hg.symm.trans hgd)
    | handoff i hg hmc => exact GLoc.noConfusion (hg.symm.trans hgd)
    | timerRecv hmc ht => exact MLoc.noConfusion (hmc.symm.trans hm)

/-- Claim C3, counterexample to the claim as stated: with an attempt that
succeeds only after the deadline has elapsed, `commonDialer` can reach a
state in which the late connection was closed (as claimed) but the caller
is blocked forever in `cancel <- true` — no transition exists, no result is
ever produced, and cancellation was never delivered — so the caller does
not observe `DeadlineExceeded` (it observes nothing). -/
theorem commonDialer_c3_counterexample :
    Reached attAlwaysOk timeoutErrMsgEx dialerDeadState ∧
    dialerDeadState.closed = [0] ∧
    dialerDeadState.canceled = false ∧
    (∀ r, dialerDeadState.m ≠ MLoc.done r) ∧
    (∀ s2, ¬ DStep attAlwaysOk timeoutErrMsgEx dialerDeadState s2) := by
  refine ⟨?_, rfl, rfl, ?_, ?_⟩
  · have st1 : DStep attAlwaysOk timeoutErrMsgEx initDialer
        ⟨GLoc.top 0, MLoc.sel, TState.fired, [], false⟩ :=
      DStep.fire initDialer rfl
    have st2 : DStep attAlwaysOk timeoutErrMsgEx
        ⟨GLoc.top 0, MLoc.sel, TState.fired, [], false⟩
        ⟨GLoc.gstop 0, MLoc.sel, TState.fired, [], false⟩ :=
      DStep.attemptSucc _ 0 rfl (fun h => MLoc.noConfusion h) rfl
    have st3 : DStep attAlwaysOk timeoutErrMsgEx
        ⟨GLoc.gstop 0, MLoc.sel, TState.fired, [], false⟩
        ⟨GLoc.gdone, MLoc.sel, TState.fired, [0], false⟩ :=
      DStep.stopFalse _ 0 rfl rfl
    have st4 : DStep attAlwaysOk timeoutErrMsgEx
        ⟨GLoc.gdone, MLoc.sel, TState.fired, [0], false⟩ dialerDeadState :=
      DStep.timerRecv _ rfl rfl
    exact Relation.ReflTransGen.tail
      (Relation.ReflTransGen.tail
        (Relation.ReflTransGen.tail (Relation.ReflTransGen.single st1) st2) st3) st4
  · intro r hm
    exact MLoc.noConfusion hm
  · intro s2 h
    cases h with
    | fire ht => exact absurd ht (by decide)
    | cancelRdv i hg hm => exact GLoc.noConfusion hg
    | attemptFail i e hg hm ha => exact GLoc.noConfusion hg
    | attemptSucc i hg hm ha => exact GLoc.noConfusion hg
    | stopTrue i hg ht => exact GLoc.noConfusion hg
    | stopFalse i hg ht => exact GLoc.noConfusion hg
    | handoff i hg hm => exact GLoc.noConfusion hg
    | timerRecv hm ht => exact MLoc.noConfusion hm

/-- Claim C3, witness: the amended theorem applied to a concrete reachable
state in which connection 0 was handed over. -/
theorem commonDialer_c3_witness :
    attAlwaysOk 0 = Except.ok () ∧ 0 ∉ dialerDoneState.closed ∧
    dialerDoneState.t = TState.stopped := by
  have st1 : DStep attAlwaysOk timeoutErrMsgEx initDialer
      ⟨GLoc.gstop 0, MLoc.sel, TState.running, [], false⟩ :=
    DStep.attemptSucc _ 0 rfl (fun h => MLoc.noConfusion h) rfl
  have st2 : DStep attAlwaysOk timeoutErrMsgEx
      ⟨GLoc.gstop 0, MLoc.sel, TState.running, [], false⟩
      ⟨GLoc.gsend 0, MLoc.sel, TState.stopped, [], false⟩ :=
    DStep.stopTrue _ 0 rfl rfl
  have st3 : DStep attAlwaysOk timeoutErrMsgEx
      ⟨GLoc.gsend 0, MLoc.sel, TState.stopped, [], false⟩ dialerDoneState :=
    DStep.handoff _ 0 rfl rfl
  have hreach : Reached attAlwaysOk timeoutErrMsgEx dialerDoneState :=
    Relation.ReflTransGen.tail
      (Relation.ReflTransGen.tail (Relation.ReflTransGen.single st1) st2) st3
  exact (commonDialer_c3 attAlwaysOk timeoutErrMsgEx dialerDoneState hreach).1 0 rfl

/-- Claim C4: in every reachable state of a `commonDialer` invocation, any
error result handed to the caller is exactly the `timeoutErrMsg`
(`DeadlineExceeded`) passed in — per-attempt errors are never surfaced —
and it is produced at the very rendezvous that delivers the cancellation
signal to the attempting goroutine; in particular when no attempt ever
succeeds, every result is the `DeadlineExceeded` error with cancellation
delivered. -/
theorem commonDialer_c4 (att : Nat → Except GoErr Unit) (tErr : GoErr) (s : DialerState)
    (hr : Reached att tErr s) :
    (∀ e, s.m = MLoc.done (Except.error e) → e = tErr ∧ s.canceled = true) ∧
    ((∀ i, att i ≠ Except.ok ()) →
      ∀ r, s.m = MLoc.done r → r = Except.error tErr ∧ s.canceled = true) := by
  obtain ⟨h1, h2, h3, h4, h5, h6, h7⟩ := dialerInv_reached hr
  refine ⟨?_, ?_⟩
  · intro e hm
    exact ⟨(h6 e hm).1, (h6 e hm).2.1⟩
  · intro hfail r hm
    cases r with
    | ok i => exact absurd (h1 i hm).1 (hfail i)
    | error e =>
      have he := h6 e hm
      exact ⟨by rw [he.1], he.2.1⟩

/-- Claim C4, witness: the theorem applied to a concrete run with
always-failing attempts that ends in the timeout result. -/
theorem commonDialer_c4_witness :
    (Except.error timeoutErrMsgEx : Except GoErr Nat) = Except.error timeoutErrMsgEx ∧
    dialerTimeoutState.canceled = true := by
  have st1 : DStep attAlwaysRefused timeoutErrMsgEx initDialer
      ⟨GLoc.top 0, MLoc.sel, TState.fired, [], false⟩ :=
    DStep.fire initDialer rfl
  have st2 : DStep attAlwaysRefused timeoutErrMsgEx
      ⟨GLoc.top 0, MLoc.sel, TState.fired, [], false⟩
      ⟨GLoc.top 0, MLoc.cancelS, TState.fired, [], false⟩ :=
    DStep.timerRecv _ rfl rfl
  have st3 : DStep attAlwaysRefused timeoutErrMsgEx
      ⟨GLoc.top 0, MLoc.cancelS, TState.fired, [], false⟩ dialerTimeoutState :=
    DStep.cancelRdv _ 0 rfl rfl
  have hreach : Reached attAlwaysRefused timeoutErrMsgEx dialerTimeoutState :=
    Relation.ReflTransGen.tail
      (Relation.ReflTransGen.tail (Relation.ReflTransGen.single st1) st2) st3
  exact (commonDialer_c4 attAlwaysRefused timeoutErrMsgEx dialerTimeoutState hreach).2
    (fun i h => Except.noConfusion h) (Except.error timeoutErrMsgEx) rfl

/-- Claim C1, counterexample to the claim as stated: a hybrid dial attempt
whose acknowledgement read fails (write succeeded) closes the connection
but is reported as a SUCCESSFUL attempt — `dialFunc` returns the closed
connection together with a nil error (`client.go` lines 319-325), not a
dial failure. -/
theorem hybridHandshake_c1_counterexample :
    (hybridDialAttempt
        ⟨none, none, some (GoErr.ioErr ("read failed".data))⟩ 1024 0).result
      = Except.ok () ∧
    (hybridDialAttempt
        ⟨none, none, some (GoErr.ioErr ("read failed".data))⟩ 1024 0).connClosed = true :=
  ⟨rfl, rfl⟩

/-- Claim C1 (amended): in a hybrid dial attempt whose underlying UNIX
connect succeeded, a write error on the `CONNECT` line closes the
connection and reports the attempt as a dial failure; a read error on the
acknowledgement closes the connection but the attempt returns the (closed)
connection with a nil error, leaving it to the RPC framework to redial;
when both succeed the connection is returned open. -/
theorem hybridHandshake_c1_amended (b : HybridConnBehavior) (dialPort hvPort : Nat)
    (hd : b.dialErr = none) :
    (∀ e, b.writeErr = some e →
        (hybridDialAttempt b dialPort hvPort).result = Except.error e ∧
        (hybridDialAttempt b dialPort hvPort).connClosed = true) ∧
    (∀ e, b.writeErr = none → b.readErr = some e →
        (hybridDialAttempt b dialPort hvPort).result = Except.ok () ∧
        (hybridDialAttempt b dialPort hvPort).connClosed = true) ∧
    (b.writeErr = none → b.readErr = none →
        (hybridDialAttempt b dialPort hvPort).result = Except.ok () ∧
        (hybridDialAttempt b dialPort hvPort).connClosed = false) := by
  refine ⟨?_, ?_, ?_⟩
  · intro e hw
    simp [hybridDialAttempt, hd, hw]
  · intro e hw hrd
    simp [hybridDialAttempt, hd, hw, hrd]
  · intro hw hrd
    simp [hybridDialAttempt, hd, hw, hrd]

/-- Claim C1, witness: the amended theorem applied to a concrete behaviour
whose `CONNECT` write fails. -/
theorem hybridHandshake_c1_witness :
    (hybridDialAttempt
        ⟨none, some (GoErr.ioErr ("broken pipe".data)), none⟩ 1024 0).result
      = Except.error (GoErr.ioErr ("broken pipe".data)) ∧
    (hybridDialAttempt
        ⟨none, some (GoErr.ioErr ("broken pipe".data)), none⟩ 1024 0).connClosed = true :=
  (hybridHandshake_c1_amended
      ⟨none, some (GoErr.ioErr ("broken pipe".data)), none⟩ 1024 0 rfl).1
    (GoErr.ioErr ("broken pipe".data)) rfl

/-- Claim C5: evaluation of the code at the failing input.  `unixDialer`
guards with `strings.HasPrefix(sock, "unix:")` but then calls
`strings.Trim(sock, "unix:")`, which removes the CHARACTER SET
`{u,n,i,x,:}` from both ends: for the dial string `unix:/a/nix` the path
actually dialled is `/a/`, not `/a/nix` — the trailing characters are not
left unchanged as the claim states. -/
theorem unixDialer_c5_trim_divergence :
    unixDialerPath ("unix:/a/nix".data) = "/a/".data ∧
    "/a/".data ≠ "/a/nix".data := by
  refine ⟨by decide, by decide⟩

/-- Claim C9: `StartEventServiceServer` indexes `vals[1]` before testing
`len(vals) == 2`, so a listener address string containing no colon panics
with an index-out-of-range; and when the split yields exactly two fields
whose second parses (via `strconv.Atoi`) as 0, the function returns a nil
server together with a nil error. -/
theorem startEventServiceServer_c9 (addr a b : List Char) :
    (':' ∉ addr → startEventServiceServer addr = StartOutcome.panicIndex) ∧
    (':' ∉ a → ':' ∉ b → goAtoiPair b = (0, none) →
      startEventServiceServer (a ++ ':' :: b) = StartOutcome.ret none none) := by
  constructor
  · intro hnc
    have hs : splitOn ':' addr = [addr] := splitOn_not_mem hnc
    unfold startEventServiceServer
    rw [hs]
    simp
  · intro ha hb hatoi
    have hs : splitOn ':' (a ++ ':' :: b) = [a, b] := by
      rw [splitOn_append_sep _ ha, splitOn_not_mem hb]
    unfold startEventServiceServer
    rw [hs]
    simp [hatoi]

/-- Claim C9, witness: the theorem applied to the colon-less address `vm3`
and to the two-field address `vsock(3):0` whose port field parses as 0. -/
theorem startEventServiceServer_c9_witness :
    startEventServiceServer ("vm3".data) = StartOutcome.panicIndex ∧
    startEventServiceServer ("vsock(3)".data ++ ':' :: "0".data) = StartOutcome.ret none none :=
  ⟨(startEventServiceServer_c9 ("vm3".data) [] []).1 (by decide),
   (startEventServiceServer_c9 [] ("vsock(3)".data) ("0".data)).2
     (by decide) (by decide) (by decide)⟩

/-- Claim C10: after confirming the container is running, the `network ls`
action discards the error returned by `getNetworks` — for every failure `e`
of `vci.ListNetwork` the action still succeeds, invoking the selected
formatter on the nil (empty) endpoint list, for each of the three valid
format selections. -/
theorem netListAction_c10 (a : NetListArgs) (e : GoErr)
    (hargs : a.argsPresent = true) (hinfo : a.infoErr = none)
    (hrun : a.running = true) (hlist : a.listResult = Except.error e) :
    (a.quiet = true → netListAction a = Except.ok (FormatWrite.listW [])) ∧
    (a.quiet = false → a.format = "table".data →
        netListAction a = Except.ok (FormatWrite.tabularW [])) ∧
    (a.quiet = false → a.format = "json".data →
        netListAction a = Except.ok (FormatWrite.jsonW [])) := by
  refine ⟨?_, ?_, ?_⟩
  · intro hq
    simp [netListAction, hargs, hinfo, hrun, hlist, hq, getNetworks]
  · intro hq hf
    simp [netListAction, hargs, hinfo, hrun, hlist, hq, hf, getNetworks]
  · intro hq hf
    simp [netListAction, hargs, hinfo, hrun, hlist, hq, hf, getNetworks]

/-- Claim C10, witness: the theorem applied to a concrete run in which
`vci.ListNetwork` fails and the default table format is selected. -/
theorem netListAction_c10_witness :
    netListAction
        ⟨true, none, true,
         Except.error (GoErr.invalidArgument ("no sandbox".data)), false, "table".data⟩
      = Except.ok (FormatWrite.tabularW []) :=
  (netListAction_c10
      ⟨true, none, true,
       Except.error (GoErr.invalidArgument ("no sandbox".data)), false, "table".data⟩
      (GoErr.invalidArgument ("no sandbox".data)) rfl rfl rfl rfl).2.1 rfl rfl

theorem not_mem_append2 {c : Char} {x y : List Char} (hx : c ∉ x) (hy : c ∉ y) :
    c ∉ x ++ y := by
  intro hm
  rcases List.mem_append.mp hm with h | h
  · exact hx h
  · exact hy h

theorem not_mem_cons2 {c d : Char} {y : List Char} (hd : ¬ c = d) (hy : c ∉ y) :
    c ∉ d :: y := by
  intro hm
  rcases List.mem_cons.mp hm with h | h
  · exact hd h
  · exact hy h

theorem getScheme_vsock (r : List Char) :
    getScheme ("vsock://".data ++ r) = Except.ok ("vsock".data, '/' :: '/' :: r) := rfl

theorem getScheme_hvsock (r : List Char) :
    getScheme ("hvsock://".data ++ r) = Except.ok ("hvsock".data, '/' :: '/' :: r) := rfl

theorem urlParseAfterScheme_authority (scheme x : List Char)
    (hq : '?' ∉ x) (hsl : '/' ∉ x) (hat : '@' ∉ x) (hv : parseHostValid x = true) :
    urlParseAfterScheme scheme ('/' :: '/' :: x) = Except.ok ⟨scheme, x, [], []⟩ := by
  have hq2 : '?' ∉ '/' :: '/' :: x := not_mem_cons2 (by decide) (not_mem_cons2 (by decide) hq)
  unfold urlParseAfterScheme
  rw [splitFirst_fst_of_not_mem hq2]
  simp only [List.take, List.drop, if_pos rfl, breakAtChar_of_not_mem hsl]
  unfold afterLastAt
  rw [lastSplitChar_of_not_mem hat]
  rw [if_pos hv]
  simp

theorem urlParseAfterScheme_slashpath (scheme x2 : List Char)
    (hq : '?' ∉ x2) :
    urlParseAfterScheme scheme ('/' :: '/' :: '/' :: x2) = Except.ok ⟨scheme, [], '/' :: x2, []⟩ := by
  have hq2 : '?' ∉ '/' :: '/' :: '/' :: x2 :=
    not_mem_cons2 (by decide) (not_mem_cons2 (by decide) (not_mem_cons2 (by decide) hq))
  unfold urlParseAfterScheme
  rw [splitFirst_fst_of_not_mem hq2]
  simp only [List.take, List.drop, if_pos rfl, breakAtChar_cons_self]
  rfl

/-- Claim C2: for every address `vsock://cid:port` whose cid and port are
base-10 digit strings with values below 2^32, `parse` succeeds, produces
the dial string `vsock:cid:port`, and `parseGrpcVsockAddr` recovers from
that dial string exactly the same (cid, port) pair. -/
theorem parse_vsock_c2 (hv : Nat) (cidS portS : List Char)
    (hc0 : cidS ≠ []) (hc1 : cidS.all isDigitB = true) (hc2 : digitsVal cidS < 2 ^ 32)
    (hp0 : portS ≠ []) (hp1 : portS.all isDigitB = true) (hp2 : digitsVal portS < 2 ^ 32) :
    (parse ("vsock://".data ++ (cidS ++ ':' :: portS)) hv).1
      = Except.ok (vsockSchemeL ++ ':' :: (cidS ++ ':' :: portS),
          ⟨vsockSchemeL, cidS ++ ':' :: portS, [], []⟩) ∧
    parseGrpcVsockAddr (vsockSchemeL ++ ':' :: (cidS ++ ':' :: portS))
      = Except.ok (digitsVal cidS, digitsVal portS) := by
  have hcolc : ':' ∉ cidS := not_mem_of_all_digit hc1 (by decide)
  have hcolp : ':' ∉ portS := not_mem_of_all_digit hp1 (by decide)
  have hhash : '#' ∉ "vsock://".data ++ (cidS ++ ':' :: portS) :=
    not_mem_append2 (by decide)
      (not_mem_append2 (not_mem_of_all_digit hc1 (by decide))
        (not_mem_cons2 (by decide) (not_mem_of_all_digit hp1 (by decide))))
  have hq : '?' ∉ cidS ++ ':' :: portS :=
    not_mem_append2 (not_mem_of_all_digit hc1 (by decide))
      (not_mem_cons2 (by decide) (not_mem_of_all_digit hp1 (by decide)))
  have hsl : '/' ∉ cidS ++ ':' :: portS :=
    not_mem_append2 (not_mem_of_all_digit hc1 (by decide))
      (not_mem_cons2 (by decide) (not_mem_of_all_digit hp1 (by decide)))
  have hat : '@' ∉ cidS ++ ':' :: portS :=
    not_mem_append2 (not_mem_of_all_digit hc1 (by decide))
      (not_mem_cons2 (by decide) (not_mem_of_all_digit hp1 (by decide)))
  have hphv : parseHostValid (cidS ++ ':' :: portS) = true := by
    unfold parseHostValid
    rw [lastSplitChar_append cidS hcolp]
    exact hp1
  have hshp : splitHostPort (cidS ++ ':' :: portS) = (cidS, portS) := by
    unfold splitHostPort
    rw [lastSplitChar_append cidS hcolp]
    simp [hp1]
  have hurl : urlParse ("vsock://".data ++ (cidS ++ ':' :: portS))
      = Except.ok ⟨vsockSchemeL, cidS ++ ':' :: portS, [], []⟩ := by
    unfold urlParse
    rw [splitFirst_fst_of_not_mem hhash, getScheme_vsock]
    exact urlParseAfterScheme_authority _ _ hq hsl hat hphv
  have hcu : parseUint32 cidS = some (digitsVal cidS) := by
    unfold parseUint32
    rw [if_pos ⟨hc0, hc1, hc2⟩]
  have hpu : parseUint32 portS = some (digitsVal portS) := by
    unfold parseUint32
    rw [if_pos ⟨hp0, hp1, hp2⟩]
  constructor
  · unfold parse
    rw [hurl]
    simp only [if_pos rfl]
    rw [hshp]
    simp [hc0, hp0, hcu, hpu]
  · have hsplit : splitOn ':' (vsockSchemeL ++ ':' :: (cidS ++ ':' :: portS))
        = [vsockSchemeL, cidS, portS] := by
      rw [splitOn_append_sep _ (show ':' ∉ vsockSchemeL by decide),
          splitOn_append_sep _ hcolc, splitOn_not_mem hcolp]
    unfold parseGrpcVsockAddr
    rw [hsplit]
    simp [hcu, hpu]

/-- Claim C2, witness: the theorem applied to `vsock://3:1024`. -/
theorem parse_vsock_c2_witness :
    (parse ("vsock://".data ++ ("3".data ++ ':' :: "1024".data)) 0).1
      = Except.ok (vsockSchemeL ++ ':' :: ("3".data ++ ':' :: "1024".data),
          ⟨vsockSchemeL, "3".data ++ ':' :: "1024".data, [], []⟩) ∧
    parseGrpcVsockAddr (vsockSchemeL ++ ':' :: ("3".data ++ ':' :: "1024".data))
      = Except.ok (3, 1024) :=
  parse_vsock_c2 0 ("3".data) ("1024".data)
    (by decide) (by decide) (by decide) (by decide) (by decide) (by decide)

/-- Claim C6, counterexample to the claim as stated: the address
`unix://h/p` has BOTH a non-empty host (`h`) and a non-empty path (`/p`),
yet `parse` succeeds (producing `unix:///h//p`) — the source only rejects
a unix address when host and path are both empty or a port is present, not
when both are non-empty. -/
theorem parse_unix_c6_counterexample :
    (parse ("unix://h/p".data) 0).1
      = Except.ok ("unix:///h//p".data, ⟨"unix".data, "h".data, "/p".data, []⟩) ∧
    "h".data ≠ ([] : List Char) ∧ "/p".data ≠ ([] : List Char) :=
  ⟨rfl, by decide, by decide⟩

/-- Claim C6 (amended): for every address whose URL parse yields scheme
`unix` or no scheme, `parse` succeeds iff AT LEAST ONE of the host and path
components is non-empty and the address carries no port; on success it
produces `unix:///<path>` when the host is empty and `unix:///<host>/<path>`
otherwise. -/
theorem parse_unix_c6_amended (sock : List Char) (u : GoURL) (hvp : Nat)
    (hu : urlParse sock = Except.ok u)
    (hs : u.scheme = unixSchemeL ∨ u.scheme = []) :
    ((∃ g, (parse sock hvp).1 = Except.ok g) ↔
        ((u.host ≠ [] ∨ u.path ≠ []) ∧ (splitHostPort u.host).2 = [])) ∧
    (((u.host = [] ∧ u.path = []) ∨ (splitHostPort u.host).2 ≠ []) →
        (parse sock hvp).1 = Except.error (GoErr.invalidArgument sock)) ∧
    ((u.host ≠ [] ∨ u.path ≠ []) → (splitHostPort u.host).2 = [] →
        (parse sock hvp).1 = Except.ok
          (unixSchemeL ++ ":///".data ++
            (if u.host = [] then u.path else u.host ++ '/' :: u.path), u)) := by
  have hnv : ¬ u.scheme = vsockSchemeL := by
    rcases hs with h | h <;> rw [h] <;> decide
  have herr : ((u.host = [] ∧ u.path = []) ∨ (splitHostPort u.host).2 ≠ []) →
      (parse sock hvp).1 = Except.error (GoErr.invalidArgument sock) := by
    intro hcond
    unfold parse
    rw [hu]
    simp [hnv, hs, hcond]
  have hok : (u.host ≠ [] ∨ u.path ≠ []) → (splitHostPort u.host).2 = [] →
      (parse sock hvp).1 = Except.ok
        (unixSchemeL ++ ":///".data ++
          (if u.host = [] then u.path else u.host ++ '/' :: u.path), u) := by
    intro h1 h2
    have hcond : ¬ ((u.host = [] ∧ u.path = []) ∨ (splitHostPort u.host).2 ≠ []) := by
      intro hc
      rcases hc with ⟨ha, hb⟩ | hc
      · rcases h1 with h | h
        · exact h ha
        · exact h hb
      · exact hc h2
    unfold parse
    rw [hu]
    by_cases hh : u.host = []
    · have hpne : ¬ u.path = [] := fun hp => hcond (Or.inl ⟨hh, hp⟩)
      have hsp : (splitHostPort ([] : List Char)).2 = ([] : List Char) := rfl
      simp [hnv, hs, hcond, hh, hpne, hsp]
    · simp [hnv, hs, hcond, hh, h2]
  refine ⟨⟨?_, ?_⟩, herr, hok⟩
  · rintro ⟨g, hg⟩
    by_cases hcond : (u.host = [] ∧ u.path = []) ∨ (splitHostPort u.host).2 ≠ []
    · rw [herr hcond] at hg
      exact Except.noConfusion hg
    · rcases not_or.mp hcond with ⟨hnp, hp⟩
      exact ⟨not_and_or.mp hnp, not_not.mp hp⟩
  · rintro ⟨h1, h2⟩
    exact ⟨_, hok h1 h2⟩

/-- Claim C6, witness: the amended theorem applied to `unix:///tmp/x`
(empty host, non-empty path, no port). -/
theorem parse_unix_c6_witness :
    (parse ("unix:///tmp/x".data) 0).1
      = Except.ok ("unix:////tmp/x".data, ⟨unixSchemeL, [], "/tmp/x".data, []⟩) :=
  (parse_unix_c6_amended ("unix:///tmp/x".data) ⟨unixSchemeL, [], "/tmp/x".data, []⟩ 0
      rfl (Or.inl rfl)).2.2 (Or.inr (by decide)) rfl

/-- Claim C7, counterexample to the claim as stated: the hybrid address
`hvsock://proxy:9999` (the spec's own shape, with no leading slash on the
proxy path) is parsed by `net/url` with `proxy:9999` as its HOST and an
empty path, so `parse` rejects it with `InvalidArgument` — no port is
stored and no dial string is produced. -/
theorem parse_hvsock_c7_counterexample :
    (parse ("hvsock://proxy:9999".data) 5).1
      = Except.error (GoErr.invalidArgument ("hvsock://proxy:9999".data)) ∧
    (parse ("hvsock://proxy:9999".data) 5).2 = 5 :=
  ⟨rfl, rfl⟩

/-- Claim C7 (amended): for every hybrid address `hvsock://<proxy-path>:<port>`
whose proxy path begins with `/` (so that it lands in the URL's path
component) and contains no colon, `parse` stores the parsed port in the
process-wide `hybridVSockPort` state and produces the dial string
`hvsock:<proxy-path>` with no port segment; `parseGrpcHybridVSockAddr` on
that dial string resolves port 0, and the dial attempt then falls back to
the process-wide value, so the `CONNECT` line of the handshake carries
exactly the port of the original address. -/
theorem parse_hvsock_c7_amended (hv0 : Nat) (p portS : List Char) (b : HybridConnBehavior)
    (hp0 : p.head? = some '/') (hp1 : ':' ∉ p) (hp2 : '#' ∉ p) (hp3 : '?' ∉ p)
    (hq0 : portS ≠ []) (hq1 : portS.all isDigitB = true) (hq2 : digitsVal portS < 2 ^ 32)
    (hb : b.dialErr = none) :
    (parse ("hvsock://".data ++ (p ++ ':' :: portS)) hv0).2 = digitsVal portS ∧
    (parse ("hvsock://".data ++ (p ++ ':' :: portS)) hv0).1
      = Except.ok (hvsockSchemeL ++ ':' :: p,
          ⟨hvsockSchemeL, [], p ++ ':' :: portS, []⟩) ∧
    parseGrpcHybridVSockAddr (hvsockSchemeL ++ ':' :: p) = Except.ok (p, 0) ∧
    (hybridDialAttempt b 0 (digitsVal portS)).wrote = some (connectCmd (digitsVal portS)) := by
  have hcolp : ':' ∉ portS := not_mem_of_all_digit hq1 (by decide)
  obtain ⟨c, p2, rfl⟩ : ∃ c p2, p = c :: p2 := by
    cases p with
    | nil => exact Option.noConfusion hp0
    | cons c p2 => exact ⟨c, p2, rfl⟩
  have hc : c = '/' := by
    have := hp0
    simp [List.head?] at this
    exact this
  subst hc
  have hq' : '?' ∉ p2 ++ ':' :: portS := by
    refine not_mem_append2 (fun hm => hp3 ?_) ?_
    · exact List.mem_cons_of_mem _ hm
    · exact not_mem_cons2 (by decide) (not_mem_of_all_digit hq1 (by decide))
  have hhash : '#' ∉ "hvsock://".data ++ (('/' :: p2) ++ ':' :: portS) := by
    refine not_mem_append2 (by decide) (not_mem_append2 hp2 ?_)
    exact not_mem_cons2 (by decide) (not_mem_of_all_digit hq1 (by decide))
  have hurl : urlParse ("hvsock://".data ++ (('/' :: p2) ++ ':' :: portS))
      = Except.ok ⟨hvsockSchemeL, [], ('/' :: p2) ++ ':' :: portS, []⟩ := by
    unfold urlParse
    rw [splitFirst_fst_of_not_mem hhash, getScheme_hvsock]
    exact urlParseAfterScheme_slashpath _ _ hq'
  have hp1' : ':' ∉ ('/' :: p2) := hp1
  have hsplit : splitOn ':' ('/' :: (p2 ++ ':' :: portS)) = [('/' :: p2), portS] := by
    have h0 : splitOn ':' (('/' :: p2) ++ ':' :: portS) = [('/' :: p2), portS] := by
      rw [splitOn_append_sep _ hp1', splitOn_not_mem hcolp]
    exact h0
  have hpu : parseUint32 portS = some (digitsVal portS) := by
    unfold parseUint32
    rw [if_pos ⟨hq0, hq1, hq2⟩]
  have hsp2 : splitOn ':' (hvsockSchemeL ++ ':' :: ('/' :: p2)) = [hvsockSchemeL, '/' :: p2] := by
    rw [splitOn_append_sep _ (show ':' ∉ hvsockSchemeL by decide), splitOn_not_mem hp1']
  refine ⟨?_, ?_, ?_, ?_⟩
  · unfold parse
    rw [hurl]
    simp [hsplit, hpu, List.get!, List.head!,
      show ¬ (hvsockSchemeL = vsockSchemeL) from by decide,
      show ¬ (hvsockSchemeL = unixSchemeL ∨ hvsockSchemeL = []) from by decide]
  · unfold parse
    rw [hurl]
    simp [hsplit, hpu, List.get!, List.head!,
      show ¬ (hvsockSchemeL = vsockSchemeL) from by decide,
      show ¬ (hvsockSchemeL = unixSchemeL ∨ hvsockSchemeL = []) from by decide]
  · unfold parseGrpcHybridVSockAddr
    rw [hsp2]
    simp
  · unfold hybridDialAttempt
    rw [hb]
    cases hw : b.writeErr with
    | some e2 => simp
    | none => cases hr : b.readErr with
      | some e2 => simp
      | none => simp

/-- Claim C7, witness: the amended theorem applied to `hvsock:///x:9` with
an attempt whose connect, write and read all succeed. -/
theorem parse_hvsock_c7_witness :
    (parse ("hvsock://".data ++ ("/x".data ++ ':' :: "9".data)) 0).2 = 9 ∧
    (parse ("hvsock://".data ++ ("/x".data ++ ':' :: "9".data)) 0).1
      = Except.ok (hvsockSchemeL ++ ':' :: "/x".data,
          ⟨hvsockSchemeL, [], "/x".data ++ ':' :: "9".data, []⟩) ∧
    parseGrpcHybridVSockAddr (hvsockSchemeL ++ ':' :: "/x".data)
      = Except.ok ("/x".data, 0) ∧
    (hybridDialAttempt ⟨none, none, none⟩ 0 9).wrote = some (connectCmd 9) :=
  parse_hvsock_c7_amended 0 ("/x".data) ("9".data) ⟨none, none, none⟩
    rfl (by decide) (by decide) (by decide) (by decide) (by decide) (by decide) rfl

/-- Claim C8, counterexample to the claim as stated: `vsock://3:ab` has a
malformed (non-numeric) port field, but `net/url.Parse` itself rejects the
authority `3:ab` and `parse` returns that URL error verbatim (`client.go`
line 107) — an error that does NOT carry the `InvalidArgument` status
code. -/
theorem parse_c8_counterexample :
    (parse ("vsock://3:ab".data) 0).1
      = Except.error (GoErr.urlErr ("invalid port after host".data)) ∧
    isInvalidArg (GoErr.urlErr ("invalid port after host".data)) = false :=
  ⟨rfl, rfl⟩

/-- Claim C8 (amended): an input whose URL-level syntax is itself invalid
(e.g. a non-digit port after the last colon of the authority, as in
`vsock://3:ab`) is rejected with the URL parser's own error, passed through
unchanged, which is not `InvalidArgument`.  For every input that URL-parses
successfully, `parse` returns an `InvalidArgument` error whenever a
required component for its scheme is missing, a numeric field is malformed
or out of range at the `parse` level, or the scheme is unrecognized:
concretely, for a vsock address with empty hostname, empty port, non-empty
path or unparseable cid/port; for a unix/schemeless address with host and
path both empty or a port present; for an hvsock address with empty path,
a path not of the form `p:q`, or an unparseable port; and for every other
scheme. -/
theorem parse_invalid_c8_amended (sock : List Char) (hvp : Nat) :
    (∀ e, urlParse sock = Except.error e → (parse sock hvp).1 = Except.error e) ∧
    (∀ u, urlParse sock = Except.ok u →
      ((u.scheme = vsockSchemeL →
          ((splitHostPort u.host).1 = [] ∨ (splitHostPort u.host).2 = [] ∨ u.path ≠ [] ∨
            parseUint32 ((splitHostPort u.host).1) = none ∨
            parseUint32 ((splitHostPort u.host).2) = none) →
          (parse sock hvp).1 = Except.error (GoErr.invalidArgument sock)) ∧
       ((u.scheme = unixSchemeL ∨ u.scheme = []) →
          ((u.host = [] ∧ u.path = []) ∨ (splitHostPort u.host).2 ≠ []) →
          (parse sock hvp).1 = Except.error (GoErr.invalidArgument sock)) ∧
       (u.scheme = hvsockSchemeL →
          (u.path = [] ∨ (splitOn ':' u.path).length ≠ 2 ∨
            parseUint32 ((splitOn ':' u.path).get! 1) = none) →
          (parse sock hvp).1 = Except.error (GoErr.invalidArgument sock)) ∧
       (u.scheme ≠ vsockSchemeL → ¬ (u.scheme = unixSchemeL ∨ u.scheme = []) →
          u.scheme ≠ hvsockSchemeL →
          (parse sock hvp).1 = Except.error (GoErr.invalidArgument sock)))) := by
  constructor
  · intro e he
    unfold parse
    rw [he]
  · intro u hu
    refine ⟨?_, ?_, ?_, ?_⟩
    · intro hsch hbad
      rcases hbad with h | h | h | h | h
      · unfold parse; rw [hu]; simp [hsch, h]
      · unfold parse; rw [hu]; simp [hsch, h]
      · unfold parse; rw [hu]; simp [hsch, h]
      · by_cases hc : (splitHostPort u.host).1 = [] ∨ (splitHostPort u.host).2 = [] ∨
            u.path ≠ []
        · unfold parse; rw [hu]; simp [hsch, hc]
        · unfold parse; rw [hu]; simp [hsch, hc, h]
      · by_cases hc : (splitHostPort u.host).1 = [] ∨ (splitHostPort u.host).2 = [] ∨
            u.path ≠ []
        · unfold parse; rw [hu]; simp [hsch, hc]
        · cases hcc : parseUint32 ((splitHostPort u.host).1) with
          | none => unfold parse; rw [hu]; simp [hsch, hc, hcc]
          | some v => unfold parse; rw [hu]; simp [hsch, hc, hcc, h]
    · intro hsch hbad
      have hne1 : ¬ (unixSchemeL = vsockSchemeL) := by decide
      have hne2 : ¬ (([] : List Char) = vsockSchemeL) := by decide
      rcases hsch with h | h
      · unfold parse; rw [hu]; simp [h, hne1, hbad]
      · unfold parse; rw [hu]; simp [h, hne2, hbad]
    · intro hsch hbad
      have hne3 : ¬ (hvsockSchemeL = vsockSchemeL) := by decide
      have hne4 : ¬ (hvsockSchemeL = unixSchemeL ∨ hvsockSchemeL = []) := by decide
      rcases hbad with h | h | h
      · unfold parse; rw [hu]; simp [hsch, hne3, hne4, h]
      · by_cases hp : u.path = []
        · unfold parse; rw [hu]; simp [hsch, hne3, hne4, hp]
        · unfold parse; rw [hu]; simp [hsch, hne3, hne4, hp, h]
      · by_cases hp : u.path = []
        · unfold parse; rw [hu]; simp [hsch, hne3, hne4, hp]
        · by_cases hl : (splitOn ':' u.path).length ≠ 2
          · unfold parse; rw [hu]; simp [hsch, hne3, hne4, hp, hl]
          · have h2 : parseUint32 ((splitOn ':' u.path)[1]!) = none := by
              simpa using h
            unfold parse; rw [hu]; simp [hsch, hne3, hne4, hp, hl, h2]
    · intro hv1 hv2 hv3
      unfold parse; rw [hu]; simp [hv1, hv2, hv3]

/-- Claim C8, witness: the amended theorem applied to `vsock://:1024`
(missing cid), which `parse` rejects with `InvalidArgument`. -/
theorem parse_invalid_c8_witness :
    (parse ("vsock://:1024".data) 0).1
      = Except.error (GoErr.invalidArgument ("vsock://:1024".data)) :=
  ((parse_invalid_c8_amended ("vsock://:1024".data) 0).2
      ⟨vsockSchemeL, ":1024".data, [], []⟩ rfl).1 rfl (Or.inl (by decide))
